import Mathlib

/-!
ACL flags and ACL answers of `src/acl/Acl.h`.

A shallow embedding of the two value classes that `Acl.h` defines inline:

* `allow_t`, the ACL check answer (a result code and a custom "kind"), with its
  two equality operators, its conversion to `aclMatchCode` and its stream output;
* `ACLFlags`, the set of one-letter flags of an ACL, stored as a 64-bit word whose
  bit `f - 'A'` says whether the flag `f` is set.

Conventions of the embedding.

* A C `char` is the integer it promotes to (`ACLFlag = Int`); `ord c` is the code of
  the character literal `c`.
* A `uint64_t` is a natural number kept below `2 ^ 64`; every operation that could
  leave that range reduces modulo `2 ^ 64`.
* An `int` is an integer: the code only stores and compares `kind`, so it never overflows.
* A flags array is the list of its characters, read up to the first `ACL_F_END`.
* `makeSet` and `makeUnSet` are declared in `Acl.h` and defined elsewhere; they are
  modelled from the specification and marked as such.
* A call that can hit `assert` or report a configuration error returns an `Outcome`.
* An output stream is the state that a formatted insertion reads and writes: the text
  taken by its buffer, the room left in the buffer, the field width, the fill character,
  the adjustment and the error bits. Its exception mask is the default one, under which
  `setstate` records an error bit and does not throw; flushing inserts no character.
-/

namespace Acl

/-! ## Result codes and answers -/

/-- The enumeration `aclMatchCode`, in declaration order. -/
inductive aclMatchCode where
  | ACCESS_DENIED
  | ACCESS_ALLOWED
  | ACCESS_DUNNO
  | ACCESS_AUTH_REQUIRED
  deriving DecidableEq, Repr

open aclMatchCode

/-- The class `allow_t`: an `ACCESS_*` code and the custom access list verb that matched. -/
structure allow_t where
  code : aclMatchCode
  kind : Int
  deriving DecidableEq, Repr

/-- The constructor `allow_t(const aclMatchCode aCode, int aKind)`. -/
def allow_t.ctor (aCode : aclMatchCode) (aKind : Int) : allow_t :=
  ⟨aCode, aKind⟩

/-- The same constructor called with a code alone: `aKind` takes its default value `0`. -/
def allow_t.ofCode (aCode : aclMatchCode) : allow_t :=
  allow_t.ctor aCode 0

/-- The default constructor `allow_t()`. -/
def allow_t.default : allow_t :=
  ⟨ACCESS_DUNNO, 0⟩

/-- The member `bool operator ==(const aclMatchCode aCode) const`. -/
def allow_t.eqCode (self : allow_t) (aCode : aclMatchCode) : Bool :=
  self.code == aCode

/-- The member `bool operator !=(const aclMatchCode aCode) const`. -/
def allow_t.neCode (self : allow_t) (aCode : aclMatchCode) : Bool :=
  !(self.eqCode aCode)

/-- The member `bool operator ==(const allow_t allow) const`. -/
def allow_t.eqAnswer (self allow : allow_t) : Bool :=
  self.code == allow.code && self.kind == allow.kind

/-- The conversion `operator aclMatchCode() const`. -/
def allow_t.toCode (self : allow_t) : aclMatchCode :=
  self.code

/-- The adjustment field of the format flags of a stream (`std::ios_base::adjustfield`);
`unset` is its value in a freshly initialised stream. -/
inductive AdjustField where
  | left
  | right
  | internal
  | unset
  deriving DecidableEq, Repr

/-- The part of a `std::ostream` that the insertion of a character string reads or writes:
the characters its buffer has taken so far (`text`), how many more the buffer accepts
(`room`, or `none` when it has no bound), the pending field width, the fill character, the
adjustment, and the three error bits of `rdstate()`. -/
structure ostream where
  text : List Char
  room : Option Nat
  width : Int
  fill : Char
  adjust : AdjustField
  badbit : Bool
  failbit : Bool
  eofbit : Bool
  deriving DecidableEq, Repr

/-- The member `good()`: no error bit is set. -/
def ostream.good (o : ostream) : Bool :=
  !o.badbit && !o.failbit && !o.eofbit

/-- The character sequence that a formatted insertion of `s` produces: when the pending
width exceeds the length of `s`, fill characters are added up to that width, after `s` for
the `left` adjustment and before it otherwise. -/
def ostream.padded (o : ostream) (s : List Char) : List Char :=
  if o.width > (s.length : Int) then
    if o.adjust = AdjustField.left then
      s ++ List.replicate (o.width - (s.length : Int)).toNat o.fill
    else
      List.replicate (o.width - (s.length : Int)).toNat o.fill ++ s
  else
    s

/-- The library operator `std::ostream &operator<<(std::ostream &, const char *)`, a
formatted output function. On a stream that is not `good()` it sets `failbit` and writes
nothing. Otherwise it hands the padded sequence to the buffer and resets the width to `0`;
when the buffer takes only a part of the sequence, that part is written and `badbit` is
set. -/
def ostream.insert (o : ostream) (s : String) : ostream :=
  if o.good then
    match o.room with
    | none =>
      ⟨o.text ++ o.padded s.toList, none, 0, o.fill, o.adjust, o.badbit, o.failbit, o.eofbit⟩
    | some r =>
      if (o.padded s.toList).length ≤ r then
        ⟨o.text ++ o.padded s.toList, some (r - (o.padded s.toList).length), 0, o.fill,
          o.adjust, o.badbit, o.failbit, o.eofbit⟩
      else
        ⟨o.text ++ (o.padded s.toList).take r, some 0, 0, o.fill, o.adjust, true, o.failbit,
          o.eofbit⟩
  else
    ⟨o.text, o.room, o.width, o.fill, o.adjust, o.badbit, true, o.eofbit⟩

/-- The type `ACLFlag`, a C `char`, as the integer it promotes to in an expression. -/
abbrev ACLFlag := Int

/-- The code of a character literal. -/
def ord (c : Char) : ACLFlag :=
  (c.toNat : Int)

/-- The constant `ACL_F_END`, the terminator of a flags array. -/
def ACL_F_END : ACLFlag := 0

/-- How a call ends: with a value, in a failed `assert`, or in a configuration error. -/
inductive Outcome (α : Type) where
  | ok (value : α)
  | assertFailed
  | configError
  deriving DecidableEq, Repr

/-- The bitwise complement `~x` of a `uint64_t`. -/
def not64 (x : Nat) : Nat :=
  2 ^ 64 - 1 - x % 2 ^ 64

/-- The class `ACLFlags`. `supported_` is a `std::string`, `flags_` a `uint64_t`,
`flagParameters_` a `std::map` kept as an association list with one entry per key, and
`delimiters_` a pointer that is null until the delimiter set is built. -/
structure ACLFlags where
  supported_ : List ACLFlag
  flags_ : Nat
  flagParameters_ : List (ACLFlag × String)
  delimiters_ : Option (List ACLFlag)
  deriving DecidableEq, Repr

/-- The constant `ACLFlags::FlagIndexMax = 'z' - 'A'`, a `uint32_t`. -/
def ACLFlags.FlagIndexMax : Nat :=
  (ord 'z' - ord 'A').toNat % 2 ^ 32

/-- The condition of the `assert` in `flagToInt`: `'A' <= f && f <= 'z'`. -/
def ACLFlags.inAlphabet (f : ACLFlag) : Bool :=
  decide (ord 'A' ≤ f) && decide (f ≤ ord 'z')

/-- The member `ACLFlags::flagToInt`: after the assertion, `(uint64_t)1 << (f - 'A')`. -/
def ACLFlags.flagToInt (f : ACLFlag) : Outcome Nat :=
  if ACLFlags.inAlphabet f then
    Outcome.ok ((1 <<< (f - ord 'A').toNat) % 2 ^ 64)
  else
    Outcome.assertFailed

/-- The characters of a NUL-terminated array that `std::string(const char *)` copies. -/
def cString (flags : List ACLFlag) : List ACLFlag :=
  flags.takeWhile (fun c => c != ACL_F_END)

/-- The constructor `ACLFlags(const ACLFlag flags[])`. Its initialiser list copies the
array into `supported_`, zeroes `flags_` and nulls `delimiters_`; its body is empty, so no
assertion runs and the construction always ends with a value. -/
def ACLFlags.ctor (flags : List ACLFlag) : Outcome ACLFlags :=
  Outcome.ok ⟨cString flags, 0, [], none⟩

/-- The default constructor `ACLFlags()`: `supported_` is the empty string. -/
def ACLFlags.ctorDefault : Outcome ACLFlags :=
  Outcome.ok ⟨[], 0, [], none⟩

/-- The member `ACLFlags::isSet`: `flags_ & flagToInt(f)` converted to `bool`. -/
def ACLFlags.isSet (self : ACLFlags) (f : ACLFlag) : Outcome Bool :=
  match ACLFlags.flagToInt f with
  | Outcome.ok bit => Outcome.ok ((self.flags_ &&& bit) != 0)
  | Outcome.assertFailed => Outcome.assertFailed
  | Outcome.configError => Outcome.configError

/-- Modelled from the spec: how `makeSet` "stores" a parameter "keyed by `flag`" in the
`std::map` `flagParameters_`; the new entry replaces an older one for the same flag. -/
def storeParameter (m : List (ACLFlag × String)) (f : ACLFlag) (param : String) :
    List (ACLFlag × String) :=
  (f, param) :: m.filter (fun e => e.1 != f)

/-- Modelled from the spec: the body of `ACLFlags::makeSet`, which `Acl.h` only declares.
The specification says that it "sets the bit for `flag`; if a parameter is supplied, stores
it keyed by `flag`; fails (configuration error) if `flag` is not in the supported set". The
bit of a flag is the one `flagToInt` computes, so its assertion applies. -/
def ACLFlags.makeSet (self : ACLFlags) (f : ACLFlag) (param : String) : Outcome ACLFlags :=
  if f ∈ self.supported_ then
    match ACLFlags.flagToInt f with
    | Outcome.ok bit =>
      Outcome.ok ⟨self.supported_, self.flags_ ||| bit,
        if param = "" then self.flagParameters_ else storeParameter self.flagParameters_ f param,
        self.delimiters_⟩
    | Outcome.assertFailed => Outcome.assertFailed
    | Outcome.configError => Outcome.configError
  else
    Outcome.configError

/-- Modelled from the spec: the body of `ACLFlags::makeUnSet`, which `Acl.h` only declares.
The specification says that it "clears the bit; does not remove any stored parameter". The
bit of a flag is the one `flagToInt` computes, so its assertion applies. -/
def ACLFlags.makeUnSet (self : ACLFlags) (f : ACLFlag) : Outcome ACLFlags :=
  match ACLFlags.flagToInt f with
  | Outcome.ok bit =>
    Outcome.ok ⟨self.supported_, self.flags_ &&& not64 bit, self.flagParameters_,
      self.delimiters_⟩
  | Outcome.assertFailed => Outcome.assertFailed
  | Outcome.configError => Outcome.configError

/-- The flag sets that a program can hold: the results of the two constructors, and what
`makeSet` and `makeUnSet` turn such a set into. -/
inductive ACLFlags.Reachable : ACLFlags → Prop where
  | ctor (flags : List ACLFlag) (fs : ACLFlags) :
      ACLFlags.ctor flags = Outcome.ok fs → ACLFlags.Reachable fs
  | ctorDefault (fs : ACLFlags) :
      ACLFlags.ctorDefault = Outcome.ok fs → ACLFlags.Reachable fs
  | makeSet (fs fs1 : ACLFlags) (f : ACLFlag) (param : String) :
      ACLFlags.Reachable fs → fs.makeSet f param = Outcome.ok fs1 → ACLFlags.Reachable fs1
  | makeUnSet (fs fs1 : ACLFlags) (f : ACLFlag) :
      ACLFlags.Reachable fs → fs.makeUnSet f = Outcome.ok fs1 → ACLFlags.Reachable fs1


/-! ## Definitions used in the proofs -/

/-- The bit index `f - 'A'` of a flag. -/
def bitIndex (f : ACLFlag) : Nat :=
  (f - ord 'A').toNat

/-- Only supported flags have their bit set. -/
def ACLFlags.OnlySupportedSet (fs : ACLFlags) : Prop :=
  ∀ g : ACLFlag, ACLFlags.inAlphabet g = true → g ∉ fs.supported_ →
    fs.flags_.testBit (bitIndex g) = false

/-! ## Helper lemmas -/

/-! ### Insertion into a stream -/

theorem insert_of_not_good (o : ostream) (s : String) (hg : o.good = false) :
    (o.insert s).text = o.text ∧ (o.insert s).failbit = true := by
  unfold ostream.insert
  rw [hg]
  exact ⟨rfl, rfl⟩

theorem ord_A : ord 'A' = (65 : Int) := by decide

theorem ord_z : ord 'z' = (122 : Int) := by decide

theorem inAlphabet_iff (f : Int) :
    ACLFlags.inAlphabet f = true ↔ (65 : Int) ≤ f ∧ f ≤ (122 : Int) := by
  simp [ACLFlags.inAlphabet, ord_A, ord_z]

theorem bitIndex_le (f : Int) (h : ACLFlags.inAlphabet f = true) : bitIndex f ≤ 57 := by
  have h1 := (inAlphabet_iff f).mp h
  unfold bitIndex
  rw [ord_A]
  omega

theorem bitIndex_injective (f g : Int) (hf : ACLFlags.inAlphabet f = true)
    (hg : ACLFlags.inAlphabet g = true) (h : bitIndex f = bitIndex g) : f = g := by
  have h1 := (inAlphabet_iff f).mp hf
  have h2 := (inAlphabet_iff g).mp hg
  unfold bitIndex at h
  rw [ord_A] at h
  omega

theorem flagToInt_eq (f : ACLFlag) (h : ACLFlags.inAlphabet f = true) :
    ACLFlags.flagToInt f = Outcome.ok (2 ^ bitIndex f) := by
  have hk := bitIndex_le f h
  have hlt : 2 ^ bitIndex f < 2 ^ 64 := Nat.pow_lt_pow_right (by decide) (by omega)
  unfold ACLFlags.flagToInt
  rw [if_pos h, Nat.one_shiftLeft]
  show Outcome.ok (2 ^ bitIndex f % 2 ^ 64) = Outcome.ok (2 ^ bitIndex f)
  rw [Nat.mod_eq_of_lt hlt]

theorem flagToInt_assert (f : ACLFlag) (h : ACLFlags.inAlphabet f = false) :
    ACLFlags.flagToInt f = Outcome.assertFailed := by
  unfold ACLFlags.flagToInt
  rw [h]
  rfl

theorem and_two_pow_ne_zero (x k : Nat) : ((x &&& 2 ^ k) != 0) = x.testBit k := by
  cases hb : x.testBit k
  · have hz : x &&& 2 ^ k = 0 := by
      apply Nat.eq_of_testBit_eq
      intro i
      rw [Nat.testBit_and, Nat.testBit_two_pow, Nat.zero_testBit]
      by_cases hi : k = i
      · subst hi; simp [hb]
      · simp [hi]
    rw [hz]
    rfl
  · have ht : (x &&& 2 ^ k).testBit k = true := by
      rw [Nat.testBit_and, Nat.testBit_two_pow_self, hb]
      rfl
    have hne : x &&& 2 ^ k ≠ 0 := by
      intro h0
      rw [h0, Nat.zero_testBit] at ht
      exact Bool.noConfusion ht
    simpa using hne

theorem isSet_eq (fs : ACLFlags) (f : ACLFlag) (h : ACLFlags.inAlphabet f = true) :
    fs.isSet f = Outcome.ok (fs.flags_.testBit (bitIndex f)) := by
  unfold ACLFlags.isSet
  rw [flagToInt_eq f h]
  show Outcome.ok ((fs.flags_ &&& 2 ^ bitIndex f) != 0) = _
  rw [and_two_pow_ne_zero]

theorem isSet_assert (fs : ACLFlags) (f : ACLFlag) (h : ACLFlags.inAlphabet f = false) :
    fs.isSet f = Outcome.assertFailed := by
  unfold ACLFlags.isSet
  rw [flagToInt_assert f h]

theorem testBit_not64_two_pow (k i : Nat) (hk : k < 64) :
    (not64 (2 ^ k)).testBit i = (decide (i < 64) && !decide (k = i)) := by
  have hlt : 2 ^ k < 2 ^ 64 := Nat.pow_lt_pow_right (by decide) hk
  unfold not64
  rw [Nat.mod_eq_of_lt hlt]
  have e : 2 ^ 64 - 1 - 2 ^ k = 2 ^ 64 - (2 ^ k + 1) := by omega
  rw [e, Nat.testBit_two_pow_sub_succ hlt, Nat.testBit_two_pow]

theorem makeSet_eq (fs : ACLFlags) (f : ACLFlag) (param : String)
    (hs : f ∈ fs.supported_) (h : ACLFlags.inAlphabet f = true) :
    fs.makeSet f param = Outcome.ok ⟨fs.supported_, fs.flags_ ||| 2 ^ bitIndex f,
      if param = "" then fs.flagParameters_ else storeParameter fs.flagParameters_ f param,
      fs.delimiters_⟩ := by
  unfold ACLFlags.makeSet
  rw [if_pos hs, flagToInt_eq f h]

theorem makeSet_unsupported (fs : ACLFlags) (f : ACLFlag) (param : String)
    (hs : f ∉ fs.supported_) : fs.makeSet f param = Outcome.configError := by
  unfold ACLFlags.makeSet
  rw [if_neg hs]

theorem makeUnSet_eq (fs : ACLFlags) (f : ACLFlag) (h : ACLFlags.inAlphabet f = true) :
    fs.makeUnSet f = Outcome.ok ⟨fs.supported_, fs.flags_ &&& not64 (2 ^ bitIndex f),
      fs.flagParameters_, fs.delimiters_⟩ := by
  unfold ACLFlags.makeUnSet
  rw [flagToInt_eq f h]

theorem reachable_onlySupportedSet (fs : ACLFlags) (h : ACLFlags.Reachable fs) :
    fs.OnlySupportedSet := by
  induction h with
  | ctor flags fs h =>
    injection h with h
    subst h
    intro g _ _
    exact Nat.zero_testBit _
  | ctorDefault fs h =>
    injection h with h
    subst h
    intro g _ _
    exact Nat.zero_testBit _
  | makeSet fs fs1 f param _ hstep ih =>
    by_cases hs : f ∈ fs.supported_
    · cases hf : ACLFlags.inAlphabet f
      · unfold ACLFlags.makeSet at hstep
        rw [if_pos hs, flagToInt_assert f hf] at hstep
        exact Outcome.noConfusion hstep
      · rw [makeSet_eq fs f param hs hf] at hstep
        injection hstep with hstep
        subst hstep
        intro g hg hgs
        have hne : bitIndex f ≠ bitIndex g := by
          intro hk
          have hfg := bitIndex_injective f g hf hg hk
          subst hfg
          exact hgs hs
        show (fs.flags_ ||| 2 ^ bitIndex f).testBit (bitIndex g) = false
        rw [Nat.testBit_or, ih g hg hgs, Nat.testBit_two_pow_of_ne hne]
        rfl
    · rw [makeSet_unsupported fs f param hs] at hstep
      exact Outcome.noConfusion hstep
  | makeUnSet fs fs1 f _ hstep ih =>
    cases hf : ACLFlags.inAlphabet f
    · unfold ACLFlags.makeUnSet at hstep
      rw [flagToInt_assert f hf] at hstep
      exact Outcome.noConfusion hstep
    · rw [makeUnSet_eq fs f hf] at hstep
      injection hstep with hstep
      subst hstep
      intro g hg hgs
      show (fs.flags_ &&& not64 (2 ^ bitIndex f)).testBit (bitIndex g) = false
      rw [Nat.testBit_and, ih g hg hgs]
      rfl

/-! ## Claims about `allow_t` -/

/-- C1: the Answer-to-Answer comparison `a == b` is true exactly when the codes are equal
and the kinds are equal; two answers with the same code and different kinds are not equal. -/
theorem C1_eqAnswer_iff (a b : allow_t) :
    (a.eqAnswer b = true ↔ a.code = b.code ∧ a.kind = b.kind) ∧
    (a.code = b.code → a.kind ≠ b.kind → a.eqAnswer b = false) := by
  have key : a.eqAnswer b = true ↔ a.code = b.code ∧ a.kind = b.kind := by
    simp [allow_t.eqAnswer]
  refine ⟨key, fun hc hk => ?_⟩
  cases hb : a.eqAnswer b
  · rfl
  · exact absurd (key.mp hb).2 hk

/-- C2: the Answer-to-code comparison `a == c` is true exactly when `a.code = c`, whatever
the kind of `a` is, and `a != c` is the negation of `a == c`. -/
theorem C2_eqCode_iff (a : allow_t) (c : aclMatchCode) :
    (a.eqCode c = true ↔ a.code = c) ∧
    (∀ k : Int, (allow_t.ctor a.code k).eqCode c = a.eqCode c) ∧
    a.neCode c = !(a.eqCode c) := by
  refine ⟨by simp [allow_t.eqCode], fun k => rfl, rfl⟩

/-- C10: the default answer has code `ACCESS_DUNNO` and kind `0`, so it is neither allowed
nor denied; an answer built from a bare code has kind `0` and converts back to that code;
and the default answer equals the answer built from `ACCESS_DUNNO`. -/
theorem C10_default_answer :
    allow_t.default.code = ACCESS_DUNNO ∧ allow_t.default.kind = 0 ∧
    allow_t.default.eqCode ACCESS_ALLOWED = false ∧
    allow_t.default.eqCode ACCESS_DENIED = false ∧
    (∀ c : aclMatchCode, (allow_t.ofCode c).kind = 0 ∧ (allow_t.ofCode c).toCode = c) ∧
    allow_t.default.eqAnswer (allow_t.ofCode ACCESS_DUNNO) = true := by
  refine ⟨rfl, rfl, rfl, rfl, fun c => ⟨rfl, rfl⟩, ?_⟩
  decide

/-! ## Claims about `ACLFlags` -/

/-- C4, as amended: for every flag set and every supported flag `f` with `'A' <= f <= 'z'`,
`makeSet(f)` succeeds and `isSet(f)` is then true, and a subsequent `makeUnSet(f)` succeeds
and `isSet(f)` is then false; `makeUnSet(f)` alone also leaves `isSet(f)` false. -/
theorem C4_makeSet_then_makeUnSet (fs : ACLFlags) (f : ACLFlag) (param : String)
    (hs : f ∈ fs.supported_) (hA : ord 'A' ≤ f) (hz : f ≤ ord 'z') :
    (∃ fs1 fs2 : ACLFlags,
      fs.makeSet f param = Outcome.ok fs1 ∧ fs1.isSet f = Outcome.ok true ∧
      fs1.makeUnSet f = Outcome.ok fs2 ∧ fs2.isSet f = Outcome.ok false) ∧
    (∃ fs3 : ACLFlags, fs.makeUnSet f = Outcome.ok fs3 ∧ fs3.isSet f = Outcome.ok false) := by
  have hf : ACLFlags.inAlphabet f = true := by simp [ACLFlags.inAlphabet, hA, hz]
  have hk : bitIndex f < 64 := Nat.lt_of_le_of_lt (bitIndex_le f hf) (by decide)
  have hclear : ∀ x : Nat, (x &&& not64 (2 ^ bitIndex f)).testBit (bitIndex f) = false := by
    intro x
    rw [Nat.testBit_and, testBit_not64_two_pow _ _ hk]
    simp
  refine ⟨⟨_, _, makeSet_eq fs f param hs hf, ?_, makeUnSet_eq _ f hf, ?_⟩,
    ⟨_, makeUnSet_eq fs f hf, ?_⟩⟩
  · rw [isSet_eq _ f hf]
    show Outcome.ok ((fs.flags_ ||| 2 ^ bitIndex f).testBit (bitIndex f)) = _
    rw [Nat.testBit_or, Nat.testBit_two_pow_self, Bool.or_true]
  · rw [isSet_eq _ f hf]
    show Outcome.ok (((fs.flags_ ||| 2 ^ bitIndex f) &&& not64 (2 ^ bitIndex f)).testBit
      (bitIndex f)) = _
    rw [hclear]
  · rw [isSet_eq _ f hf]
    show Outcome.ok ((fs.flags_ &&& not64 (2 ^ bitIndex f)).testBit (bitIndex f)) = _
    rw [hclear]

/-- The amended C4 at the flag set declared with `"in"` and the flag `'i'`. -/
theorem C4_makeSet_then_makeUnSet_witness :
    (ord 'i' ∈ (ACLFlags.mk [ord 'i', ord 'n'] 0 [] none).supported_ ∧
      ord 'A' ≤ ord 'i' ∧ ord 'i' ≤ ord 'z') ∧
    ((∃ fs1 fs2 : ACLFlags,
      (ACLFlags.mk [ord 'i', ord 'n'] 0 [] none).makeSet (ord 'i') "" = Outcome.ok fs1 ∧
      fs1.isSet (ord 'i') = Outcome.ok true ∧
      fs1.makeUnSet (ord 'i') = Outcome.ok fs2 ∧ fs2.isSet (ord 'i') = Outcome.ok false) ∧
    (∃ fs3 : ACLFlags,
      (ACLFlags.mk [ord 'i', ord 'n'] 0 [] none).makeUnSet (ord 'i') = Outcome.ok fs3 ∧
      fs3.isSet (ord 'i') = Outcome.ok false)) :=
  ⟨by decide, C4_makeSet_then_makeUnSet (ACLFlags.mk [ord 'i', ord 'n'] 0 [] none) (ord 'i') ""
    (by decide) (by decide) (by decide)⟩

/-- C4 as stated fails: the flag set declared with `"0"` has `'0'` as a supported flag, yet
`makeSet('0')` stops at the assertion of `flagToInt`, and so does `isSet('0')` on every
flag set, so it never returns true. -/
theorem C4_counterexample :
    ∃ fs : ACLFlags, ACLFlags.ctor [ord '0', ACL_F_END] = Outcome.ok fs ∧
      ord '0' ∈ fs.supported_ ∧
      fs.makeSet (ord '0') "" = Outcome.assertFailed ∧
      ∀ fs1 : ACLFlags, fs1.isSet (ord '0') = Outcome.assertFailed ∧
        fs1.isSet (ord '0') ≠ Outcome.ok true := by
  refine ⟨_, rfl, by decide, by decide, fun fs1 => ?_⟩
  have h := isSet_assert fs1 (ord '0') (by decide)
  exact ⟨h, by rw [h]; exact fun e => Outcome.noConfusion e⟩

/-- C5, as amended: for every flag set that the constructors, `makeSet` and `makeUnSet` can
produce and every flag `f` outside its supported set, `isSet(f)` returns false without
error when `'A' <= f <= 'z'`, and stops at the assertion of `flagToInt` otherwise. -/
theorem C5_isSet_unsupported (fs : ACLFlags) (f : ACLFlag) (hr : ACLFlags.Reachable fs)
    (hs : f ∉ fs.supported_) :
    (ACLFlags.inAlphabet f = true → fs.isSet f = Outcome.ok false) ∧
    (ACLFlags.inAlphabet f = false → fs.isSet f = Outcome.assertFailed) := by
  refine ⟨fun hf => ?_, fun hf => isSet_assert fs f hf⟩
  rw [isSet_eq fs f hf, reachable_onlySupportedSet fs hr f hf hs]

/-- The amended C5 at the flag set declared with `"in"` after `makeSet('i')`, asked for the
unsupported flag `'m'`. -/
theorem C5_isSet_unsupported_witness :
    (ACLFlags.Reachable (ACLFlags.mk [ord 'i', ord 'n'] (2 ^ 40) [] none) ∧
      ord 'm' ∉ (ACLFlags.mk [ord 'i', ord 'n'] (2 ^ 40) [] none).supported_) ∧
    ((ACLFlags.inAlphabet (ord 'm') = true →
      (ACLFlags.mk [ord 'i', ord 'n'] (2 ^ 40) [] none).isSet (ord 'm') = Outcome.ok false) ∧
    (ACLFlags.inAlphabet (ord 'm') = false →
      (ACLFlags.mk [ord 'i', ord 'n'] (2 ^ 40) [] none).isSet (ord 'm')
        = Outcome.assertFailed)) :=
  have hr : ACLFlags.Reachable (ACLFlags.mk [ord 'i', ord 'n'] (2 ^ 40) [] none) :=
    ACLFlags.Reachable.makeSet (ACLFlags.mk [ord 'i', ord 'n'] 0 [] none) _ (ord 'i') ""
      (ACLFlags.Reachable.ctor [ord 'i', ord 'n', ACL_F_END] _ (by decide)) (by decide)
  ⟨⟨hr, by decide⟩, C5_isSet_unsupported _ (ord 'm') hr (by decide)⟩

/-- C5 as stated fails: on the flag set declared with `"i"` the character `'0'` is not
supported, and `isSet('0')` stops at the assertion of `flagToInt` instead of returning
false. -/
theorem C5_counterexample :
    ∃ fs : ACLFlags, ACLFlags.ctor [ord 'i', ACL_F_END] = Outcome.ok fs ∧
      ord '0' ∉ fs.supported_ ∧
      fs.isSet (ord '0') = Outcome.assertFailed ∧
      fs.isSet (ord '0') ≠ Outcome.ok false := by
  refine ⟨_, rfl, by decide, by decide, by decide⟩

/-- C6, as amended: the characters that satisfy the precondition `'A' <= f <= 'z'` of
`flagToInt` are exactly 58, one more than the largest bit index `FlagIndexMax = 57`. -/
theorem C6_alphabet_card (s : Finset Int)
    (hs : ∀ f : Int, f ∈ s ↔ ACLFlags.inAlphabet f = true) :
    s.card = 58 ∧ ACLFlags.FlagIndexMax = 57 ∧ s.card = ACLFlags.FlagIndexMax + 1 := by
  have e : s = Finset.Icc (65 : Int) 122 := by
    ext f
    rw [hs f, inAlphabet_iff, Finset.mem_Icc]
  have hc : s.card = 58 := by
    rw [e, Int.card_Icc]
    rfl
  have hm : ACLFlags.FlagIndexMax = 57 := by decide
  exact ⟨hc, hm, by rw [hc, hm]⟩

/-- The amended C6 at the set of the integers from `'A'` to `'z'`. -/
theorem C6_alphabet_card_witness :
    (∀ f : Int, f ∈ Finset.Icc (ord 'A') (ord 'z') ↔ ACLFlags.inAlphabet f = true) ∧
    ((Finset.Icc (ord 'A') (ord 'z')).card = 58 ∧ ACLFlags.FlagIndexMax = 57 ∧
      (Finset.Icc (ord 'A') (ord 'z')).card = ACLFlags.FlagIndexMax + 1) :=
  have h : ∀ f : Int, f ∈ Finset.Icc (ord 'A') (ord 'z') ↔ ACLFlags.inAlphabet f = true :=
    fun f => by rw [Finset.mem_Icc, inAlphabet_iff, ord_A, ord_z]
  ⟨h, C6_alphabet_card _ h⟩

/-- C6 as stated fails: the characters from `'A'` to `'z'` are the flag alphabet, and they
are 58, not 57. -/
theorem C6_counterexample :
    ¬ ∀ s : Finset Int, (∀ f : Int, f ∈ s ↔ ACLFlags.inAlphabet f = true) → s.card = 57 := by
  intro h
  have h57 := h (Finset.Icc (65 : Int) 122) (fun f => by rw [Finset.mem_Icc, inAlphabet_iff])
  rw [Int.card_Icc] at h57
  exact absurd h57 (by decide)

/-- C7: for every flag `f` with `'A' <= f <= 'z'`, `flagToInt(f)` is `2 ^ (f - 'A')`; the bit
index is at most `FlagIndexMax = 57 < 64`, so the value fits 64 bits, is not zero and has
exactly that one bit; and two distinct such flags give different values that share no
bit. -/
theorem C7_flagToInt_single_bit (f g : ACLFlag) (hA : ord 'A' ≤ f) (hz : f ≤ ord 'z')
    (hgA : ord 'A' ≤ g) (hgz : g ≤ ord 'z') (hne : f ≠ g) :
    (∃ x : Nat, ACLFlags.flagToInt f = Outcome.ok x ∧ x = 2 ^ (f - ord 'A').toNat ∧
      x ≠ 0 ∧ x < 2 ^ 64 ∧ ∀ i : Nat, x.testBit i = decide ((f - ord 'A').toNat = i)) ∧
    (f - ord 'A').toNat ≤ ACLFlags.FlagIndexMax ∧ ACLFlags.FlagIndexMax = 57 ∧ ACLFlags.FlagIndexMax < 64 ∧
    (∃ x y : Nat, ACLFlags.flagToInt f = Outcome.ok x ∧ ACLFlags.flagToInt g = Outcome.ok y ∧
      x ≠ y ∧ x &&& y = 0) := by
  have hf : ACLFlags.inAlphabet f = true := by simp [ACLFlags.inAlphabet, hA, hz]
  have hg : ACLFlags.inAlphabet g = true := by simp [ACLFlags.inAlphabet, hgA, hgz]
  have hk : bitIndex f ≤ 57 := bitIndex_le f hf
  have hm : ACLFlags.FlagIndexMax = 57 := by decide
  have hkne : bitIndex f ≠ bitIndex g := fun e => hne (bitIndex_injective f g hf hg e)
  have hand : 2 ^ bitIndex f &&& 2 ^ bitIndex g = 0 := by
    apply Nat.eq_of_testBit_eq
    intro i
    rw [Nat.testBit_and, Nat.testBit_two_pow, Nat.testBit_two_pow, Nat.zero_testBit]
    by_cases h1 : bitIndex f = i
    · have h2 : bitIndex g ≠ i := fun e => hkne (h1.trans e.symm)
      simp [h2]
    · simp [h1]
  refine ⟨⟨_, flagToInt_eq f hf, rfl, ?_, ?_, fun i => Nat.testBit_two_pow⟩,
    ?_, hm, by rw [hm]; decide, ⟨_, _, flagToInt_eq f hf, flagToInt_eq g hg, ?_, hand⟩⟩
  · exact Nat.pos_iff_ne_zero.mp (Nat.pow_pos (by decide))
  · exact Nat.pow_lt_pow_right (by decide) (by omega)
  · rw [hm]; exact hk
  · intro e
    exact hkne (Nat.pow_right_injective (le_refl 2) e)

/-- C7 at the flags `'i'` and `'n'`. -/
theorem C7_flagToInt_single_bit_witness :
    (ord 'A' ≤ ord 'i' ∧ ord 'i' ≤ ord 'z' ∧ ord 'A' ≤ ord 'n' ∧ ord 'n' ≤ ord 'z' ∧
      ord 'i' ≠ ord 'n') ∧
    ((∃ x : Nat, ACLFlags.flagToInt (ord 'i') = Outcome.ok x ∧
      x = 2 ^ (ord 'i' - ord 'A').toNat ∧ x ≠ 0 ∧ x < 2 ^ 64 ∧
      ∀ i : Nat, x.testBit i = decide ((ord 'i' - ord 'A').toNat = i)) ∧
    (ord 'i' - ord 'A').toNat ≤ ACLFlags.FlagIndexMax ∧ ACLFlags.FlagIndexMax = 57 ∧
    ACLFlags.FlagIndexMax < 64 ∧
    (∃ x y : Nat, ACLFlags.flagToInt (ord 'i') = Outcome.ok x ∧
      ACLFlags.flagToInt (ord 'n') = Outcome.ok y ∧ x ≠ y ∧ x &&& y = 0)) :=
  ⟨by decide, C7_flagToInt_single_bit (ord 'i') (ord 'n') (by decide) (by decide) (by decide)
    (by decide) (by decide)⟩

/-- C8, as amended: the constructor `ACLFlags(flags)` contains no assertion; for every list
it produces a flag set whose supported flags are the characters of the list and in which no
flag is set. A supported character outside `'A'..'z'` is rejected only later, by the
assertion of `flagToInt` when `isSet` receives it. -/
theorem C8_ctor_accepts_any_list (flags : List ACLFlag) :
    ∃ fs : ACLFlags, ACLFlags.ctor flags = Outcome.ok fs ∧
      fs.supported_ = cString flags ∧ fs.flags_ = 0 ∧
      ∀ c : ACLFlag, c ∈ fs.supported_ → ACLFlags.inAlphabet c = false →
        fs.isSet c = Outcome.assertFailed :=
  ⟨_, rfl, rfl, rfl, fun c _ hc => isSet_assert _ c hc⟩

/-- C8 as stated fails: the list `"0"` contains `'0'`, which is outside `'A'..'z'`, and the
constructor produces a flag set from it instead of failing an assertion. -/
theorem C8_counterexample :
    ord '0' ∈ cString [ord '0', ACL_F_END] ∧ ACLFlags.inAlphabet (ord '0') = false ∧
    ACLFlags.ctor [ord '0', ACL_F_END] = Outcome.ok ⟨[ord '0'], 0, [], none⟩ ∧
    ACLFlags.ctor [ord '0', ACL_F_END] ≠ Outcome.assertFailed := by
  decide

/-- C9: a flag set fresh from either constructor has no flag set: `isSet(f)` returns false
for every flag `f` with `'A' <= f <= 'z'`. -/
theorem C9_fresh_has_no_flag_set (flags : List ACLFlag) (f : ACLFlag)
    (hA : ord 'A' ≤ f) (hz : f ≤ ord 'z') :
    (∃ fs : ACLFlags, ACLFlags.ctor flags = Outcome.ok fs ∧ fs.isSet f = Outcome.ok false) ∧
    (∃ fs : ACLFlags, ACLFlags.ctorDefault = Outcome.ok fs ∧
      fs.isSet f = Outcome.ok false) := by
  have hf : ACLFlags.inAlphabet f = true := by simp [ACLFlags.inAlphabet, hA, hz]
  refine ⟨⟨_, rfl, ?_⟩, ⟨_, rfl, ?_⟩⟩
  · rw [isSet_eq _ f hf]
    show Outcome.ok ((0 : Nat).testBit (bitIndex f)) = _
    rw [Nat.zero_testBit]
  · rw [isSet_eq _ f hf]
    show Outcome.ok ((0 : Nat).testBit (bitIndex f)) = _
    rw [Nat.zero_testBit]

/-- C9 at the list `"in"` and the flag `'i'`. -/
theorem C9_fresh_has_no_flag_set_witness :
    (ord 'A' ≤ ord 'i' ∧ ord 'i' ≤ ord 'z') ∧
    ((∃ fs : ACLFlags, ACLFlags.ctor [ord 'i', ord 'n', ACL_F_END] = Outcome.ok fs ∧
      fs.isSet (ord 'i') = Outcome.ok false) ∧
    (∃ fs : ACLFlags, ACLFlags.ctorDefault = Outcome.ok fs ∧
      fs.isSet (ord 'i') = Outcome.ok false)) :=
  ⟨by decide, C9_fresh_has_no_flag_set [ord 'i', ord 'n', ACL_F_END] (ord 'i') (by decide)
    (by decide)⟩

end Acl
